import Mathlib

/-!
Shallow embedding of the beatperf metric core (src/stat.rs, src/fields.rs,
src/groups/generic.rs, src/watchers.rs).

JSON numbers (serde_json::Number, and the f64 values obtained from them via
as_f64) are modelled as rationals: every numeric value appearing in the
properties below (small integers, division by 1000) is exactly representable
in both f64 and ℚ, so the rational model agrees with the floating point code
on all inputs used here.
-/

/- JValue models serde_json::Value as far as this program inspects it:
the code only ever distinguishes numbers, objects, and "everything else"
(strings, arrays, booleans, null are all ignored uniformly). JObj models
serde_json::Map as the sequence of its entries in iteration order
(serde_json's BTreeMap iterates in sorted key order; all concrete documents
below list their keys sorted, and real maps never hold duplicate keys). The
two are a mutual inductive so that every recursion below is structural. -/
mutual

/-- JValue is one value inside a snapshot document. -/
inductive JValue where
  | num : ℚ → JValue
  | obj : JObj → JValue
  | other : JValue

/-- JObj is the entry sequence of one object, in map iteration order. -/
inductive JObj where
  | nil : JObj
  | cons : String → JValue → JObj → JObj

end

/-- JObj.ofList builds an object from a list of entries, for readable
concrete documents. -/
def JObj.ofList : List (String × JValue) → JObj
  | [] => JObj.nil
  | (k, v) :: rest => JObj.cons k v (JObj.ofList rest)

/-- jget models serde_json::Map::get: first (therefore only) binding of the key. -/
def jget : JObj → String → Option JValue
  | JObj.nil, _ => none
  | JObj.cons k v rest, key => if k = key then some v else jget rest key

/-- splitDotsAux mirrors Rust str::split on the character level:
an empty input yields one empty segment, each dot starts a new segment. -/
def splitDotsAux : List Char → List (List Char)
  | [] => [[]]
  | c :: rest =>
    if c = '.' then [] :: splitDotsAux rest
    else
      match splitDotsAux rest with
      | s :: ss => (c :: s) :: ss
      | [] => [[c]]

/-- splitDots models nested_key.split(".") collected into a list of strings. -/
def splitDots (s : String) : List String :=
  (splitDotsAux s.data).map String.mk

/-- joinDotsAux rebuilds a dotted string from segments, as the source's
reduce with format "acc.e" does. -/
def joinDotsAux : List (List Char) → List Char
  | [] => []
  | [s] => s
  | s :: s2 :: rest => s ++ '.' :: joinDotsAux (s2 :: rest)

/-- joinDots models key_list.into_iter().reduce with "{acc}.{e}" formatting
applied to a non-empty list (on [] the source's reduce yields None). -/
def joinDots (l : List String) : String :=
  String.mk (joinDotsAux (l.map String.data))

/-- getRootGo is the recursion of get_root_elem over the segment list: the
source re-joins the remaining segments with dots and re-splits them on the
recursive call, which is the identity on the dot-free segments produced by
split (lemma splitDots_joinDots below). One segment: direct map lookup. More
than one: pop the first, require an object there, recurse; a missing key or a
non-object child yields none. The [] case is unreachable from splitDots
output (splitDots_ne_nil below); the source would panic there on
pop_front().unwrap(), see getRootGoChecked. -/
def getRootGo : List String → JObj → Option JValue
  | [], _ => none
  | [k], data => jget data k
  | k :: k2 :: rest, data =>
    match jget data k with
    | some (JValue.obj val) => getRootGo (k2 :: rest) val
    | _ => none

/-- get_root_elem models the identical function in src/stat.rs lines 233-252
and src/groups/generic.rs lines 247-266. -/
def get_root_elem (data : JObj) (nested_key : String) : Option JValue :=
  getRootGo (splitDots nested_key) data

/-- getRootGoChecked instruments getRootGo with the source's partiality: the
outer none means the Rust code would panic (pop_front().unwrap() on an empty
segment list); some r means it returns r normally. The non-object / absent
cases return some none, matching the early returns in the source. -/
def getRootGoChecked : List String → JObj → Option (Option JValue)
  | [], _ => none
  | [k], data => some (jget data k)
  | k :: k2 :: rest, data =>
    match jget data k with
    | some (JValue.obj val) => getRootGoChecked (k2 :: rest) val
    | _ => some none

/-- getRootElemChecked is get_root_elem with the panic case made explicit. -/
def getRootElemChecked (data : JObj) (nested_key : String) : Option (Option JValue) :=
  getRootGoChecked (splitDots nested_key) data

/- flatten_map models flatten_map in src/groups/generic.rs lines 224-244:
walk the entries in map order, keep a numeric leaf's key, recurse into an
object prefixing its keys onto the entry's key, skip every other value
(debug log). flattenEntry is one entry's contribution (the body of the
source's for loop). -/
mutual

/-- flattenEntry is the body of the for loop in flatten_map: one entry's
contribution to the flattened key list. -/
def flattenEntry : String → JValue → List String
  | key, JValue.num _ => [key]
  | key, JValue.obj nested => (flatten_map nested).map (fun k => key ++ "." ++ k)
  | _, JValue.other => []

/-- flatten_map models flatten_map in src/groups/generic.rs lines 224-244. -/
def flatten_map : JObj → List String
  | JObj.nil => []
  | JObj.cons key val rest => flattenEntry key val ++ flatten_map rest

end

/-- reduceMax models iter().reduce(f64::max).unwrap_or_default(): the maximum
of a non-empty list, 0 for the empty list. (f64::max on non-NaN inputs agrees
with the order on ℚ; serde_json numbers are never NaN.) -/
def reduceMax : List ℚ → ℚ
  | [] => 0
  | x :: xs => xs.foldl max x

/-- MField models the closed set of MetricField implementations in
src/fields.rs: the kb constructor is KbMetricFields (which stores the
as_f64 image of each pushed Number — exact in this rational model), the
generic constructor is GenericMetricFields (which stores the raw Numbers).
Each constructor carries key, data, hidden. -/
inductive MField where
  | kb : String → List ℚ → Bool → MField
  | generic : String → List ℚ → Bool → MField

namespace MField

/-- name models MetricField::name for both variants: the key. -/
def name : MField → String
  | kb k _ _ => k
  | generic k _ _ => k

/-- data exposes the stored series of either variant. -/
def data : MField → List ℚ
  | kb _ d _ => d
  | generic _ d _ => d

/-- hiddenFlag models MetricField::hidden for both variants. -/
def hiddenFlag : MField → Bool
  | kb _ _ h => h
  | generic _ _ h => h

/-- push models MetricField::push: KbMetricFields pushes value.as_f64()
(identity here), GenericMetricFields pushes the Number itself. -/
def push : MField → ℚ → MField
  | kb k d h, v => kb k (d ++ [v]) h
  | generic k d h, v => generic k (d ++ [v]) h

/-- last models MetricField::last: KbMetricFields returns
*data.last().unwrap_or(&0.0); GenericMetricFields returns the last stored
Number's as_f64, or 0.0 when empty. Neither variant applies any unit
conversion here. -/
def last : MField → ℚ
  | kb _ d _ => (d.getLast?).getD 0
  | generic _ d _ => (d.getLast?).getD 0

/-- generate_data models MetricField::generate_data: KbMetricFields clones
its data unchanged; GenericMetricFields maps every stored value through
as_f64 and divides it by 1000.0. -/
def generate_data : MField → List ℚ
  | kb _ d _ => d
  | generic _ d _ => d.map (fun q => q / 1000)

/-- maxVal models MetricField::max for both variants:
reduce(f64::max).unwrap_or_default() over the stored data. -/
def maxVal : MField → ℚ
  | kb _ d _ => reduceMax d
  | generic _ d _ => reduceMax d

end MField

/-- StatsGroup models the struct of the same name in src/stat.rs (the
file_tag field, pure chart labelling, is omitted as no claim touches it). -/
structure StatsGroup where
  fields : List MField
  updates : Nat

/-- StatsGroup.fromFields models the From impl: the given fields, updates 0. -/
def StatsGroup.fromFields (fs : List MField) : StatsGroup :=
  ⟨fs, 0⟩

/-- statUpdateField is the body of the per-field loop in StatsGroup::update:
a Number at the field's own path is pushed; an absent path (debug log) or a
non-number value (error log) leaves the field unchanged. -/
def statUpdateField (root : JObj) (f : MField) : MField :=
  match get_root_elem root (MField.name f) with
  | some (JValue.num v) => MField.push f v
  | _ => f

/-- StatsGroup.update models StatsGroup::update in src/stat.rs lines
194-211: increment updates, then run the per-field loop over every field. -/
def StatsGroup.update (g : StatsGroup) (root : JObj) : StatsGroup :=
  ⟨g.fields.map (statUpdateField root), g.updates + 1⟩

/-- StatsGroup.len models StatsGroup::len: the updates counter. -/
def StatsGroup.len (g : StatsGroup) : Nat :=
  g.updates

/-- StatsGroup.range_max models StatsGroup::range_max: the fields' maxes
reduced with f64::max, 0 when there are no fields. -/
def StatsGroup.range_max (g : StatsGroup) : ℚ :=
  reduceMax (g.fields.map MField.maxVal)

/-- StatsGroup.plot models StatsGroup::plot: every non-hidden field
contributes name -> generate_data to the result map (an association list
here; a HashMap in the source — lookups below always use distinct names). -/
def StatsGroup.plot (g : StatsGroup) : List (String × List ℚ) :=
  (g.fields.filter (fun f => !MField.hiddenFlag f)).map
    (fun f => (MField.name f, MField.generate_data f))

/-- GMetricField models the private struct MetricField<T> of
src/groups/generic.rs (renamed here to avoid the trait of the same name in
src/stat.rs): a key and the values accumulated for it. -/
structure GMetricField (T : Type) where
  key : String
  values : List T
deriving DecidableEq, Repr

/-- Generic models the struct Generic<T, Proc> of src/groups/generic.rs.
The processor and the two serde decodings (from_value into Proc::InValue in
update, from_value of a Number into T in init_metrics) are passed to the
operations as explicit functions, since Rust fixes them per instantiation
through the type parameters. -/
structure Generic (T : Type) where
  user_key : List String
  data : List (GMetricField T)
  datapoints : Nat

/-- Generic.new models Generic::new: the requested keys, no data yet,
datapoints 0. -/
def Generic.new (T : Type) (group : List String) : Generic T :=
  ⟨group, [], 0⟩

/-- initMetrics models Generic::init_metrics (src/groups/generic.rs lines
136-162), walking the requested keys in order: a key resolving to a Number
that decodes into T registers one field already seeded with that decoded
value (note: decoded directly into T, bypassing the Processor); a key
resolving to an object registers one empty field per flattened inner key,
named key.innerKey; a failed decode, an absent key, or any other value kind
registers nothing for that key (error log, continue). -/
def initMetrics {T : Type} (decodeNumT : ℚ → Option T) (root : JObj) :
    List String → List (GMetricField T)
  | [] => []
  | k :: rest =>
    (match get_root_elem root k with
     | some (JValue.num v) =>
       match decodeNumT v with
       | some raw => [⟨k, [raw]⟩]
       | none => []
     | some (JValue.obj inner) =>
       (flatten_map inner).map (fun ik => ⟨k ++ "." ++ ik, ([] : List T)⟩)
     | _ => []) ++ initMetrics decodeNumT root rest

/-- updateSeries is the body of the per-field loop in Generic::update: if
the field's key resolves to a value that decodes into the Processor's input
type, append the processed value; if the key is absent (debug log) or the
decode fails (error log), leave the field unchanged. -/
def updateSeries {I T : Type} (decodeI : JValue → Option I) (process : I → T)
    (root : JObj) (f : GMetricField T) : GMetricField T :=
  match get_root_elem root f.key with
  | some val =>
    match decodeI val with
    | some raw => ⟨f.key, f.values ++ [process raw]⟩
    | none => f
  | none => f

/-- Generic.update models Generic::update (src/groups/generic.rs lines
71-116): when data is empty, run init_metrics first (so discovery re-runs on
every call until it registers something); then run the per-field loop over
all fields — including the ones init_metrics just registered in this same
call — and finally increment datapoints unconditionally. -/
def Generic.update {I T : Type} (decodeI : JValue → Option I)
    (decodeNumT : ℚ → Option T) (process : I → T)
    (g : Generic T) (root : JObj) : Generic T :=
  let d0 := if g.data.isEmpty then initMetrics decodeNumT root g.user_key else g.data
  ⟨g.user_key, d0.map (updateSeries decodeI process root), g.datapoints + 1⟩

/-- Generic.plot models Generic::plot: each field contributes key -> values
to the result map (an association list here; a HashMap in the source —
lookups below always use distinct keys). -/
def Generic.plot {T : Type} (g : Generic T) : List (String × List T) :=
  g.data.map (fun f => (f.key, f.values))

/-- Generic.datapointsCount models Generic::datapoints. -/
def Generic.datapointsCount {T : Type} (g : Generic T) : Nat :=
  g.datapoints

/-- decodeU64 models serde_json::from_value::<u64>: succeeds exactly on a
JSON number that is a non-negative integer below 2^64. -/
def decodeU64 : JValue → Option Nat
  | JValue.num q =>
    if q.den = 1 ∧ 0 ≤ q.num ∧ q.num < 2 ^ 64 then some q.num.toNat else none
  | _ => none

/-- decodeU64num is the same decoding applied to a value already known to be
a Number, as init_metrics does. -/
def decodeU64num (q : ℚ) : Option Nat :=
  if q.den = 1 ∧ 0 ≤ q.num ∧ q.num < 2 ^ 64 then some q.num.toNat else none

/-- RecvEvent models one outcome of rx2.recv() inside run_watch: a received
snapshot, the channel closed (producer dropped), or a lagged/overrun
notification. -/
inductive RecvEvent where
  | ok : JObj → RecvEvent
  | closed : RecvEvent
  | lagged : RecvEvent

/-- WatchOutcome describes one run of the run_watch task loop over a trace
of receive outcomes: the snapshots it consumed (watch.update calls, in
order), how many interim renders it emitted inside the loop, how many final
renders it emitted after the loop, and whether it terminated (reached the
code after the loop) or is still blocked waiting to receive. -/
structure WatchOutcome where
  consumed : List JObj
  interim : Nat
  finals : Nat
  terminated : Bool

/-- runWatchGo models the loop body of run_watch (src/watchers.rs lines
13-36) as a fold over the receive trace, carrying the local count. On
Ok(dat): update, count += 1, then an interim render iff realtime and count
is a multiple of 5. On Err (closed or lagged) the select's else branch
breaks out of the loop — skipping the cadence check — and the task emits
exactly one final render and finishes. An exhausted trace with no error
means the task is still parked in recv. -/
def runWatchGo (realtime : Bool) : List RecvEvent → Nat → WatchOutcome
  | [], _ => ⟨[], 0, 0, false⟩
  | RecvEvent.ok snap :: rest, count =>
    let next := runWatchGo realtime rest (count + 1)
    let r := if realtime ∧ (count + 1) % 5 = 0 then 1 else 0
    ⟨snap :: next.consumed, r + next.interim, next.finals, next.terminated⟩
  | RecvEvent.closed :: _, _ => ⟨[], 0, 1, true⟩
  | RecvEvent.lagged :: _, _ => ⟨[], 0, 1, true⟩

/-- runWatch models the whole task spawned by run_watch, starting with
count = 0. -/
def runWatch (realtime : Bool) (events : List RecvEvent) : WatchOutcome :=
  runWatchGo realtime events 0

/-- snapshotsOf extracts the snapshots from a prefix of receive outcomes. -/
def snapshotsOf : List RecvEvent → List JObj
  | [] => []
  | RecvEvent.ok s :: rest => s :: snapshotsOf rest
  | _ :: rest => snapshotsOf rest

/-- updateU64 is Generic::update at the instantiation the repository's own
test exercises, Generic<u64, NoOpProcess<u64>>: both serde decodings are the
u64 decoding and the processor is the identity. -/
def updateU64 (g : Generic Nat) (root : JObj) : Generic Nat :=
  Generic.update decodeU64 decodeU64num id g root

/-- nestedDoc is the snapshot built by create_nested_json(val_l3, val_l2) in
the repository's tests: root.l1.l2.l3.metric holds val_l3 and
root.l1.l2.metric holds val_l2 (entry order sorted, as in a BTreeMap). -/
def nestedDoc (v3 v2 : ℚ) : JObj :=
  JObj.ofList [("root", JValue.obj (JObj.ofList [("l1", JValue.obj (JObj.ofList
    [("l2", JValue.obj (JObj.ofList
      [("l3", JValue.obj (JObj.ofList [("metric", JValue.num v3)])),
       ("metric", JValue.num v2)]))]))]))]

/-- foldField applies one watcher's sequence of snapshots to a single field,
the per-field view of iterating StatsGroup::update. -/
def foldField (roots : List JObj) (f : MField) : MField :=
  roots.foldl (fun a r => statUpdateField r a) f
theorem splitDotsAux_ne_nil (l : List Char) : splitDotsAux l ≠ [] := by
  induction l with
  | nil => simp [splitDotsAux]
  | cons c rest ih =>
    simp only [splitDotsAux]
    by_cases h : c = '.'
    · simp [h]
    · simp only [h, if_false]
      cases hr : splitDotsAux rest with
      | nil => simp
      | cons s ss => simp

theorem splitDots_ne_nil (s : String) : splitDots s ≠ [] := by
  unfold splitDots
  intro h
  exact splitDotsAux_ne_nil s.data (by simpa using h)

theorem splitDotsAux_no_dot {l : List Char} (h : '.' ∉ l) : splitDotsAux l = [l] := by
  induction l with
  | nil => simp [splitDotsAux]
  | cons c rest ih =>
    simp only [List.mem_cons, not_or] at h
    have hc : c ≠ '.' := fun hc => h.1 hc.symm
    simp only [splitDotsAux, hc, if_false, ih h.2]

theorem splitDotsAux_append_dot (s t : List Char) (h : '.' ∉ s) :
    splitDotsAux (s ++ '.' :: t) = s :: splitDotsAux t := by
  induction s with
  | nil => simp [splitDotsAux]
  | cons c rest ih =>
    simp only [List.mem_cons, not_or] at h
    have hc : c ≠ '.' := fun hc => h.1 hc.symm
    simp only [List.cons_append, splitDotsAux, hc, if_false, List.append_eq, ih h.2]

theorem splitDotsAux_joinDotsAux (l : List (List Char)) (hne : l ≠ [])
    (hdot : ∀ s ∈ l, '.' ∉ s) : splitDotsAux (joinDotsAux l) = l := by
  induction l with
  | nil => exact absurd rfl hne
  | cons s rest ih =>
    cases rest with
    | nil => simpa [joinDotsAux] using splitDotsAux_no_dot (hdot s (by simp))
    | cons s2 rs =>
      have hs : '.' ∉ s := hdot s (by simp)
      simp only [joinDotsAux, splitDotsAux_append_dot _ _ hs]
      rw [ih (by simp) (fun x hx => hdot x (by simp [hx]))]

theorem splitDots_joinDots (l : List String) (hne : l ≠ [])
    (hdot : ∀ s ∈ l, '.' ∉ s.data) : splitDots (joinDots l) = l := by
  unfold splitDots joinDots
  rw [splitDotsAux_joinDotsAux (l.map String.data)
    (by simpa using hne) (by simpa using hdot)]
  have h1 : (String.mk ∘ String.data) = id := funext (fun _ => rfl)
  rw [List.map_map, h1, List.map_id]


theorem splitDotsAux_no_dot_mem (l : List Char) :
    ∀ t ∈ splitDotsAux l, '.' ∉ t := by
  induction l with
  | nil => simp [splitDotsAux]
  | cons c rest ih =>
    simp only [splitDotsAux]
    by_cases h : c = '.'
    · simp only [h, if_true, List.mem_cons]
      rintro t (rfl | ht)
      · simp
      · exact ih t ht
    · simp only [h, if_false]
      cases hr : splitDotsAux rest with
      | nil => exact absurd hr (splitDotsAux_ne_nil rest)
      | cons s ss =>
        simp only [List.mem_cons]
        rintro t (rfl | ht)
        · have hs : '.' ∉ s := ih s (by rw [hr]; exact List.mem_cons_self s ss)
          simp only [List.mem_cons, not_or]
          exact ⟨fun hd => h hd.symm, hs⟩
        · exact ih t (by rw [hr]; exact List.mem_cons_of_mem s ht)

theorem splitDots_no_dot (s : String) : ∀ t ∈ splitDots s, '.' ∉ t.data := by
  unfold splitDots
  intro t ht
  rcases List.mem_map.mp ht with ⟨l, hl, rfl⟩
  exact splitDotsAux_no_dot_mem s.data l hl

/-- get_root_elem satisfies the source's recursive equation literally: with
at least two segments in the key, pop the first, and on an object child
recurse with the remaining segments re-joined by dots (re-splitting the
joined suffix recovers exactly those segments). -/
theorem get_root_elem_source_step (data : JObj) (key k k2 : String)
    (rest : List String) (h : splitDots key = k :: k2 :: rest) :
    get_root_elem data key =
      match jget data k with
      | some (JValue.obj val) => get_root_elem val (joinDots (k2 :: rest))
      | _ => none := by
  have hsub : splitDots (joinDots (k2 :: rest)) = k2 :: rest := by
    apply splitDots_joinDots _ (by simp)
    intro s hs
    have : s ∈ splitDots key := by rw [h]; exact List.mem_cons_of_mem _ hs
    exact splitDots_no_dot key s this
  unfold get_root_elem
  rw [h, hsub]
  rfl

theorem getRootGoChecked_eq (segs : List String) (hne : segs ≠ []) (data : JObj) :
    getRootGoChecked segs data = some (getRootGo segs data) := by
  induction segs generalizing data with
  | nil => exact absurd rfl hne
  | cons k rest ih =>
    cases rest with
    | nil => rfl
    | cons k2 rs =>
      simp only [getRootGoChecked, getRootGo]
      cases jget data k with
      | none => rfl
      | some v =>
        cases v with
        | num q => rfl
        | obj val => exact ih (by simp) val
        | other => rfl

theorem MField.push_data (f : MField) (v : ℚ) :
    MField.data (MField.push f v) = MField.data f ++ [v] := by
  cases f <;> rfl

theorem MField.push_name (f : MField) (v : ℚ) :
    MField.name (MField.push f v) = MField.name f := by
  cases f <;> rfl

theorem MField.push_hiddenFlag (f : MField) (v : ℚ) :
    MField.hiddenFlag (MField.push f v) = MField.hiddenFlag f := by
  cases f <;> rfl

theorem statUpdateField_name (root : JObj) (f : MField) :
    MField.name (statUpdateField root f) = MField.name f := by
  unfold statUpdateField
  cases h : get_root_elem root (MField.name f) with
  | none => rfl
  | some v => cases v <;> simp [MField.push_name]

theorem statUpdateField_hiddenFlag (root : JObj) (f : MField) :
    MField.hiddenFlag (statUpdateField root f) = MField.hiddenFlag f := by
  unfold statUpdateField
  cases h : get_root_elem root (MField.name f) with
  | none => rfl
  | some v => cases v <;> simp [MField.push_hiddenFlag]

theorem foldField_name (roots : List JObj) (f : MField) :
    MField.name (foldField roots f) = MField.name f := by
  induction roots generalizing f with
  | nil => rfl
  | cons r rs ih =>
    have hstep : foldField (r :: rs) f = foldField rs (statUpdateField r f) := rfl
    rw [hstep, ih, statUpdateField_name]

theorem foldField_hiddenFlag (roots : List JObj) (f : MField) :
    MField.hiddenFlag (foldField roots f) = MField.hiddenFlag f := by
  induction roots generalizing f with
  | nil => rfl
  | cons r rs ih =>
    have hstep : foldField (r :: rs) f = foldField rs (statUpdateField r f) := rfl
    rw [hstep, ih, statUpdateField_hiddenFlag]

/-- Iterating StatsGroup::update acts on each field independently and adds
one to the counter per snapshot. -/
theorem foldl_statsGroup_update (roots : List JObj) (g : StatsGroup) :
    roots.foldl StatsGroup.update g =
      ⟨g.fields.map (foldField roots), g.updates + roots.length⟩ := by
  induction roots generalizing g with
  | nil =>
    simp only [List.foldl_nil, List.length_nil, Nat.add_zero,
      show foldField [] = id from funext (fun _ => rfl), List.map_id]
  | cons r rs ih =>
    simp only [List.foldl_cons, StatsGroup.update, ih, List.map_map, List.length_cons]
    rw [show foldField rs ∘ statUpdateField r = foldField (r :: rs) from
      funext (fun _ => rfl)]
    rw [show g.updates + 1 + rs.length = g.updates + (rs.length + 1) from by omega]

theorem updateSeries_key {I T : Type} (decodeI : JValue → Option I)
    (process : I → T) (root : JObj) (f : GMetricField T) :
    (updateSeries decodeI process root f).key = f.key := by
  unfold updateSeries
  cases get_root_elem root f.key with
  | none => rfl
  | some v =>
    cases hd : decodeI v with
    | none => simp [hd]
    | some raw => simp [hd]

/-- C1. The claim: a Scaled (kilobyte-denominated) field pushed raw 1000
reports last() = 1.0 and generate_data() = [1.0], dividing every stored raw
value by 1000 in both views. The code disagrees on both candidate fields:
KbMetricFields (the kilobyte field by name and doc comment) applies no
conversion at all (last = 1000, generate_data = [1000]), and
GenericMetricFields divides by 1000 only in generate_data (last = 1000,
generate_data = [1]). -/
theorem c1_scaled_field_code_eval :
    MField.last (MField.push (MField.kb "rss" [] false) 1000) = 1000
    ∧ MField.generate_data (MField.push (MField.kb "rss" [] false) 1000) = [1000]
    ∧ MField.last (MField.push (MField.generic "rss" [] false) 1000) = 1000
    ∧ MField.generate_data (MField.push (MField.generic "rss" [] false) 1000) = [1]
    ∧ (1000 : ℚ) ≠ 1 := by
  refine ⟨rfl, rfl, rfl, ?_, by norm_num⟩
  show [(1000 : ℚ) / 1000] = [1]
  norm_num

/-- C2. The claim: a requested path resolving to a single number registers
one Series on the first update, and after k updates with the value present
and decodable each time that Series holds exactly k values. The code instead
seeds the Series with the discovered value inside init_metrics AND appends
again in the same first update's per-field loop: after one update on a
snapshot where path a holds 7, the single registered Series already holds
[7, 7] (two values), so after k updates it holds k + 1 values. -/
theorem c2_first_update_double_append :
    (updateU64 (Generic.new Nat ["a"]) (JObj.ofList [("a", JValue.num 7)])).data
      = [⟨"a", [7, 7]⟩]
    ∧ (updateU64 (Generic.new Nat ["a"])
        (JObj.ofList [("a", JValue.num 7)])).datapointsCount = 1 := by
  exact ⟨by decide, rfl⟩

/-- C9. The claim: for every field variant, last() is 0 when nothing was
pushed, and otherwise equals the final element of generate_data(), both
views applying the same unit conversion. The empty case holds for both
variants, but on GenericMetricFields with one stored value 1000, last()
returns the raw 1000 while generate_data() ends in 1000/1000 = 1: the two
views disagree, because generate_data divides by 1000 and last does not. -/
theorem c9_last_vs_generate_data_code_eval :
    MField.last (MField.kb "k" [] false) = 0
    ∧ MField.last (MField.generic "k" [] false) = 0
    ∧ MField.last (MField.generic "k" [1000] false) = 1000
    ∧ MField.generate_data (MField.generic "k" [1000] false) = [1]
    ∧ MField.last (MField.generic "k" [1000] false)
        ≠ (List.getLast? (MField.generate_data (MField.generic "k" [1000] false))).getD 0 := by
  refine ⟨rfl, rfl, rfl, ?_, ?_⟩
  · show [(1000 : ℚ) / 1000] = [1]
    norm_num
  · rw [show MField.generate_data (MField.generic "k" [1000] false)
        = [1] from by show [(1000 : ℚ) / 1000] = [1]; norm_num]
    show (1000 : ℚ) ≠ 1
    norm_num

/-- C4. A Generic series group configured with path root.l1.l2, fed the
three test snapshots (l3.metric = 42, 42, 63 and metric = 5, 5, 8), yields
after three updates plot()[root.l1.l2.l3.metric] = [42, 42, 63] and
plot()[root.l1.l2.metric] = [5, 5, 8], the series being keyed by the parent
path dot-joined with each discovered leaf suffix. This mirrors the
repository's own test_submap_generic. -/
theorem c4_lazy_discovery_idempotence :
    (Generic.plot (updateU64 (updateU64 (updateU64 (Generic.new Nat ["root.l1.l2"])
        (nestedDoc 42 5)) (nestedDoc 42 5)) (nestedDoc 63 8)))
      = [("root.l1.l2.l3.metric", [42, 42, 63]), ("root.l1.l2.metric", [5, 5, 8])]
    ∧ (Generic.plot (updateU64 (updateU64 (updateU64 (Generic.new Nat ["root.l1.l2"])
        (nestedDoc 42 5)) (nestedDoc 42 5)) (nestedDoc 63 8))).lookup
        "root.l1.l2.l3.metric" = some [42, 42, 63]
    ∧ (Generic.plot (updateU64 (updateU64 (updateU64 (Generic.new Nat ["root.l1.l2"])
        (nestedDoc 42 5)) (nestedDoc 42 5)) (nestedDoc 63 8))).lookup
        "root.l1.l2.metric" = some [5, 5, 8] := by
  refine ⟨by decide, by decide, by decide⟩

/-- C3, counterexample. A Generic group with the single requested path a is
fed a first snapshot where a holds a string-like value: discovery fails and
no series is registered. The claim says that path is then permanently
dropped; but because Generic::update re-runs init_metrics whenever data is
still empty, the second snapshot (where a holds 7) does register a Series
keyed by a. -/
theorem c3_dropped_path_counterexample :
    (updateU64 (Generic.new Nat ["a"]) (JObj.ofList [("a", JValue.other)])).data = []
    ∧ ((updateU64 (updateU64 (Generic.new Nat ["a"]) (JObj.ofList [("a", JValue.other)]))
        (JObj.ofList [("a", JValue.num 7)])).data).map GMetricField.key = ["a"] := by
  exact ⟨by decide, by decide⟩

/-- C3, amended. Once any update has left the group with a non-empty series
list, init_metrics never runs again, so the set of registered series keys
never changes afterwards: a path that failed discovery on an expansion that
registered at least one series (for any path) is permanently dropped. Only
when discovery registers no series at all is it retried on the next call. -/
theorem c3_amended_no_new_series {I T : Type} (decodeI : JValue → Option I)
    (decodeNumT : ℚ → Option T) (process : I → T) (g : Generic T) (root : JObj)
    (h : g.data ≠ []) :
    ((Generic.update decodeI decodeNumT process g root).data).map GMetricField.key
      = g.data.map GMetricField.key := by
  unfold Generic.update
  have hempty : g.data.isEmpty = false := by
    cases hd : g.data with
    | nil => exact absurd hd h
    | cons a l => rfl
  simp only [hempty, Bool.false_eq_true, if_false, List.map_map]
  have : (GMetricField.key ∘ updateSeries decodeI process root)
      = (GMetricField.key : GMetricField T → String) :=
    funext (fun f => updateSeries_key decodeI process root f)
  rw [this]

/-- C3, witness for the amended theorem: a group that already holds one
series keyed by a keeps exactly the key set [a] across a further update. -/
theorem c3_amended_no_new_series_witness :
    ((Generic.update decodeU64 decodeU64num id
        ⟨["a"], [⟨"a", [7]⟩], 1⟩ JObj.nil).data).map GMetricField.key = ["a"] :=
  c3_amended_no_new_series decodeU64 decodeU64num id ⟨["a"], [⟨"a", [7]⟩], 1⟩
    JObj.nil (by decide)

/-- C5. Path resolution over any nested document: a.b.c resolving through
two objects to a number v yields that number; a number already at a.b blocks
the remaining segment (no partial match through a non-sub-document node);
and an absent segment at any depth yields none rather than an error. -/
theorem c5_path_resolution (doc d1 d2 : JObj) (v w : ℚ) :
    (jget doc "a" = some (JValue.obj d1) → jget d1 "b" = some (JValue.obj d2) →
      jget d2 "c" = some (JValue.num v) →
      get_root_elem doc "a.b.c" = some (JValue.num v))
    ∧ (jget doc "a" = some (JValue.obj d1) → jget d1 "b" = some (JValue.num w) →
      get_root_elem doc "a.b.c" = none)
    ∧ (jget doc "a" = none → get_root_elem doc "a.b.c" = none)
    ∧ (jget doc "a" = some (JValue.obj d1) → jget d1 "b" = none →
      get_root_elem doc "a.b.c" = none)
    ∧ (jget doc "a" = some (JValue.obj d1) → jget d1 "b" = some (JValue.obj d2) →
      jget d2 "c" = none → get_root_elem doc "a.b.c" = none) := by
  have hsplit : splitDots "a.b.c" = ["a", "b", "c"] := by decide
  refine ⟨?_, ?_, ?_, ?_, ?_⟩
  · intro h1 h2 h3
    unfold get_root_elem
    rw [hsplit]
    simp [getRootGo, h1, h2, h3]
  · intro h1 h2
    unfold get_root_elem
    rw [hsplit]
    simp [getRootGo, h1, h2]
  · intro h1
    unfold get_root_elem
    rw [hsplit]
    simp [getRootGo, h1]
  · intro h1 h2
    unfold get_root_elem
    rw [hsplit]
    simp [getRootGo, h1, h2]
  · intro h1 h2 h3
    unfold get_root_elem
    rw [hsplit]
    simp [getRootGo, h1, h2, h3]

/-- C5, witness: the three scenarios at concrete documents — a.b.c = 7 below
two objects resolves to 7; a number at a.b blocks a.b.c; the empty document
resolves a.b.c to none. -/
theorem c5_path_resolution_witness :
    get_root_elem (JObj.ofList [("a", JValue.obj (JObj.ofList
        [("b", JValue.obj (JObj.ofList [("c", JValue.num 7)]))]))]) "a.b.c"
      = some (JValue.num 7)
    ∧ get_root_elem (JObj.ofList [("a", JValue.obj (JObj.ofList
        [("b", JValue.num 3)]))]) "a.b.c" = none
    ∧ get_root_elem JObj.nil "a.b.c" = none :=
  ⟨(c5_path_resolution (JObj.ofList [("a", JValue.obj (JObj.ofList
      [("b", JValue.obj (JObj.ofList [("c", JValue.num 7)]))]))])
      (JObj.ofList [("b", JValue.obj (JObj.ofList [("c", JValue.num 7)]))])
      (JObj.ofList [("c", JValue.num 7)]) 7 0).1 rfl rfl rfl,
   (c5_path_resolution (JObj.ofList [("a", JValue.obj (JObj.ofList
      [("b", JValue.num 3)]))])
      (JObj.ofList [("b", JValue.num 3)]) JObj.nil 0 3).2.1 rfl rfl,
   (c5_path_resolution JObj.nil JObj.nil JObj.nil 0 0).2.2.1 rfl⟩

/-- C6. A group of two fresh fields, the first resolving to a number in the
snapshot and the second absent from it: one update leaves updates = 1, the
present field with one stored value and the absent field with none (no
placeholder padding); and on any group whatsoever the updates counter grows
by exactly one per update call regardless of how many fields matched. -/
theorem c6_skip_on_absence (f1 f2 : MField) (root : JObj) (v : ℚ)
    (h1 : MField.data f1 = []) (h2 : MField.data f2 = [])
    (hp : get_root_elem root (MField.name f1) = some (JValue.num v))
    (ha : get_root_elem root (MField.name f2) = none) :
    (StatsGroup.update (StatsGroup.fromFields [f1, f2]) root).updates = 1
    ∧ ((StatsGroup.update (StatsGroup.fromFields [f1, f2]) root).fields.map
        (fun f => (MField.data f).length)) = [1, 0]
    ∧ ∀ (g : StatsGroup) (r : JObj), (StatsGroup.update g r).updates = g.updates + 1 := by
  refine ⟨rfl, ?_, fun g r => rfl⟩
  show [(MField.data (statUpdateField root f1)).length,
        (MField.data (statUpdateField root f2)).length] = [1, 0]
  unfold statUpdateField
  rw [hp, ha]
  simp [MField.push_data, h1, h2]

/-- C6, witness: two generic fields a and b over a snapshot holding only
a = 3. -/
theorem c6_skip_on_absence_witness :
    (StatsGroup.update (StatsGroup.fromFields
        [MField.generic "a" [] false, MField.generic "b" [] false])
        (JObj.ofList [("a", JValue.num 3)])).updates = 1
    ∧ ((StatsGroup.update (StatsGroup.fromFields
        [MField.generic "a" [] false, MField.generic "b" [] false])
        (JObj.ofList [("a", JValue.num 3)])).fields.map
        (fun f => (MField.data f).length)) = [1, 0]
    ∧ ∀ (g : StatsGroup) (r : JObj), (StatsGroup.update g r).updates = g.updates + 1 :=
  c6_skip_on_absence (MField.generic "a" [] false) (MField.generic "b" [] false)
    (JObj.ofList [("a", JValue.num 3)]) 3 rfl rfl rfl rfl

theorem plot_two_fields (a b : MField) (n : Nat)
    (ha : MField.hiddenFlag a = true) (hb : MField.hiddenFlag b = false) :
    StatsGroup.plot ⟨[a, b], n⟩
      = [(MField.name b, MField.generate_data b)] := by
  unfold StatsGroup.plot
  simp [List.filter, ha, hb]

/-- C7. A group holding one hidden and one visible field, after any number
of updates: plot() maps the visible field's key and not the hidden one's;
the hidden field still contributes to the group's range maximum through
max(); and a further snapshot holding a number at the hidden field's path
still appends to the hidden field's data (it keeps accumulating, and last()
and max() stay queryable on it directly). -/
theorem c7_hidden_exclusion (hf vf : MField) (roots : List JObj) (r : JObj) (w : ℚ)
    (hh : MField.hiddenFlag hf = true) (hv : MField.hiddenFlag vf = false)
    (hne : MField.name hf ≠ MField.name vf)
    (hw : get_root_elem r (MField.name hf) = some (JValue.num w)) :
    (StatsGroup.plot (roots.foldl StatsGroup.update
        (StatsGroup.fromFields [hf, vf]))).lookup (MField.name hf) = none
    ∧ (StatsGroup.plot (roots.foldl StatsGroup.update
        (StatsGroup.fromFields [hf, vf]))).lookup (MField.name vf)
        = some (MField.generate_data (foldField roots vf))
    ∧ StatsGroup.range_max (roots.foldl StatsGroup.update
        (StatsGroup.fromFields [hf, vf]))
        = max (MField.maxVal (foldField roots hf)) (MField.maxVal (foldField roots vf))
    ∧ MField.data (statUpdateField r (foldField roots hf))
        = MField.data (foldField roots hf) ++ [w] := by
  have hfoldh : MField.hiddenFlag (foldField roots hf) = true := by
    rw [foldField_hiddenFlag, hh]
  have hfoldv : MField.hiddenFlag (foldField roots vf) = false := by
    rw [foldField_hiddenFlag, hv]
  have hplot : StatsGroup.plot (roots.foldl StatsGroup.update
      (StatsGroup.fromFields [hf, vf]))
      = [(MField.name (foldField roots vf), MField.generate_data (foldField roots vf))] := by
    rw [foldl_statsGroup_update]
    exact plot_two_fields (foldField roots hf) (foldField roots vf) _ hfoldh hfoldv
  refine ⟨?_, ?_, ?_, ?_⟩
  · rw [hplot, foldField_name]
    simp [List.lookup, beq_eq_false_iff_ne.mpr hne]
  · rw [hplot, foldField_name]
    simp [List.lookup]
  · rw [foldl_statsGroup_update]
    exact rfl
  · unfold statUpdateField
    rw [foldField_name, hw]
    exact MField.push_data _ w

/-- C7, witness: hidden field h, visible field v, one snapshot updating
both, then a further snapshot holding h = 9. -/
theorem c7_hidden_exclusion_witness :
    (StatsGroup.plot ([JObj.ofList [("h", JValue.num 5), ("v", JValue.num 6)]].foldl
        StatsGroup.update (StatsGroup.fromFields
        [MField.generic "h" [] true, MField.kb "v" [] false]))).lookup "h" = none
    ∧ (StatsGroup.plot ([JObj.ofList [("h", JValue.num 5), ("v", JValue.num 6)]].foldl
        StatsGroup.update (StatsGroup.fromFields
        [MField.generic "h" [] true, MField.kb "v" [] false]))).lookup "v"
        = some (MField.generate_data (foldField
          [JObj.ofList [("h", JValue.num 5), ("v", JValue.num 6)]]
          (MField.kb "v" [] false)))
    ∧ StatsGroup.range_max ([JObj.ofList [("h", JValue.num 5), ("v", JValue.num 6)]].foldl
        StatsGroup.update (StatsGroup.fromFields
        [MField.generic "h" [] true, MField.kb "v" [] false]))
        = max (MField.maxVal (foldField
            [JObj.ofList [("h", JValue.num 5), ("v", JValue.num 6)]]
            (MField.generic "h" [] true)))
          (MField.maxVal (foldField
            [JObj.ofList [("h", JValue.num 5), ("v", JValue.num 6)]]
            (MField.kb "v" [] false)))
    ∧ MField.data (statUpdateField (JObj.ofList [("h", JValue.num 9)])
        (foldField [JObj.ofList [("h", JValue.num 5), ("v", JValue.num 6)]]
          (MField.generic "h" [] true)))
        = MField.data (foldField [JObj.ofList [("h", JValue.num 5), ("v", JValue.num 6)]]
          (MField.generic "h" [] true)) ++ [9] :=
  c7_hidden_exclusion (MField.generic "h" [] true) (MField.kb "v" [] false)
    [JObj.ofList [("h", JValue.num 5), ("v", JValue.num 6)]]
    (JObj.ofList [("h", JValue.num 9)]) 9 rfl rfl (by decide) rfl

theorem runWatchGo_error (realtime : Bool) (pre post : List RecvEvent)
    (err : RecvEvent) (count : Nat)
    (hpre : ∀ e ∈ pre, ∃ s, e = RecvEvent.ok s)
    (herr : err = RecvEvent.closed ∨ err = RecvEvent.lagged) :
    (runWatchGo realtime (pre ++ err :: post) count).terminated = true
    ∧ (runWatchGo realtime (pre ++ err :: post) count).finals = 1
    ∧ (runWatchGo realtime (pre ++ err :: post) count).consumed = snapshotsOf pre
    ∧ (realtime = false →
        (runWatchGo realtime (pre ++ err :: post) count).interim = 0) := by
  induction pre generalizing count with
  | nil =>
    rcases herr with rfl | rfl
    · exact ⟨rfl, rfl, rfl, fun _ => rfl⟩
    · exact ⟨rfl, rfl, rfl, fun _ => rfl⟩
  | cons e pre ih =>
    rcases hpre e (List.mem_cons_self e pre) with ⟨s, rfl⟩
    have ihs := ih (count + 1) (fun x hx => hpre x (List.mem_cons_of_mem _ hx))
    refine ⟨ihs.1, ihs.2.1, ?_, ?_⟩
    · show s :: (runWatchGo realtime (pre ++ err :: post) (count + 1)).consumed
        = s :: snapshotsOf pre
      rw [ihs.2.2.1]
    · intro hrt
      show (if realtime ∧ (count + 1) % 5 = 0 then 1 else 0)
        + (runWatchGo realtime (pre ++ err :: post) (count + 1)).interim = 0
      rw [ihs.2.2.2 hrt]
      simp [hrt]

/-- C8. When a receive on the watcher's broadcast subscription fails —
channel closed or a lagged/overrun notification, treated identically — the
run_watch task loop stops consuming right there (no snapshot delivered after
the failure is processed, no skip-forward), emits exactly one final render,
and terminates; and in replay (non-live) mode the whole run emits no interim
render at all, the single final render being the only one. -/
theorem c8_watcher_termination (realtime : Bool) (pre post : List RecvEvent)
    (err : RecvEvent)
    (hpre : ∀ e ∈ pre, ∃ s, e = RecvEvent.ok s)
    (herr : err = RecvEvent.closed ∨ err = RecvEvent.lagged) :
    (runWatch realtime (pre ++ err :: post)).terminated = true
    ∧ (runWatch realtime (pre ++ err :: post)).finals = 1
    ∧ (runWatch realtime (pre ++ err :: post)).consumed = snapshotsOf pre
    ∧ (runWatch false (pre ++ err :: post)).interim = 0 := by
  have h1 := runWatchGo_error realtime pre post err 0 hpre herr
  have h2 := runWatchGo_error false pre post err 0 hpre herr
  exact ⟨h1.1, h1.2.1, h1.2.2.1, h2.2.2.2 rfl⟩

/-- C8, witness: one delivered snapshot, then a lagged notification, with a
further snapshot sitting behind it that is never consumed. -/
theorem c8_watcher_termination_witness :
    (runWatch true ([RecvEvent.ok (JObj.ofList [("x", JValue.num 1)])]
        ++ RecvEvent.lagged :: [RecvEvent.ok JObj.nil])).terminated = true
    ∧ (runWatch true ([RecvEvent.ok (JObj.ofList [("x", JValue.num 1)])]
        ++ RecvEvent.lagged :: [RecvEvent.ok JObj.nil])).finals = 1
    ∧ (runWatch true ([RecvEvent.ok (JObj.ofList [("x", JValue.num 1)])]
        ++ RecvEvent.lagged :: [RecvEvent.ok JObj.nil])).consumed
        = snapshotsOf [RecvEvent.ok (JObj.ofList [("x", JValue.num 1)])]
    ∧ (runWatch false ([RecvEvent.ok (JObj.ofList [("x", JValue.num 1)])]
        ++ RecvEvent.lagged :: [RecvEvent.ok JObj.nil])).interim = 0 :=
  c8_watcher_termination true [RecvEvent.ok (JObj.ofList [("x", JValue.num 1)])]
    [RecvEvent.ok JObj.nil] RecvEvent.lagged
    (by intro e he
        rcases List.mem_singleton.mp he with rfl
        exact ⟨JObj.ofList [("x", JValue.num 1)], rfl⟩)
    (Or.inr rfl)

/-- C10. The path resolver is total: splitting any key on dots always yields
at least one segment, and for every document and every key — the empty
string, single segments and consecutive dots included — the panic-aware
reading of get_root_elem returns a normal Option result (never the panic
outcome): pop_front().unwrap() only runs with two or more segments in hand,
and the re-joining reduce over the non-empty remainder always produces a
value. -/
theorem c10_resolver_totality :
    (∀ s : String, splitDots s ≠ [])
    ∧ ∀ (doc : JObj) (key : String),
        getRootElemChecked doc key = some (get_root_elem doc key) :=
  ⟨splitDots_ne_nil, fun doc key =>
    getRootGoChecked_eq (splitDots key) (splitDots_ne_nil key) doc⟩
